import Mathlib

/-!
Shallow embedding of the spreadsheet evaluation core of src/model.c.

Modelling conventions:
* Strings are `List Char`; libc functions used by the source (strtol, strtod,
  strtok, sprintf) are modelled explicitly below, on the decimal grammar the
  spec prescribes ("parsed via standard decimal float grammar"); the
  hexadecimal, infinity and nan spellings that libc strtod additionally
  accepts are not modelled, and strtol overflow clamping is not modelled
  (no claim exercises either).
* A C `double` in this program is either NaN, +Infinity (both used only as
  the evaluator error sentinels of model.c) or a finite value; finite values
  are modelled as exact rationals, `ℚ`.  Every numeric constant appearing in
  a claim is exactly representable, so no binary-rounding discrepancy arises.
* A `Cell*` pointer into the global `Cell spreadsheet[NUM_ROWS][NUM_COLS]`
  is modelled by its flat element offset from `&spreadsheet[0][0]`, an `Int`:
  `&spreadsheet[row][col]` has offset `row * NUM_COLS + col`.  C99 pointer
  subtraction, division and remainder truncate toward zero, i.e. `Int.tdiv`
  and `Int.tmod`.
* `NUM_COLS = 26` is modelled from the spec ("grid is 26 columns ×
  configurable rows"); `NUM_ROWS` is kept as an explicit parameter
  (`numRows`).  `CELL_DISPLAY_WIDTH` is modelled from the spec as 10 (the
  header defining it is not under src/; the spec's scenarios require at
  least the 9 visible characters of "10.000000").
* The mutable grid is a total function from offsets to cells; state updates
  are functional.  Recursion in `evaluate_formula` is modelled with a fuel
  parameter: `none` means the modelled recursion was cut off (or, inside
  `evalFormula`, that a NULL formula pointer was dereferenced, which in C is
  undefined behaviour); every claim is settled on `some` results.
-/

set_option allowUnsafeReducibility true in
attribute [local semireducible] Rat.mul Rat.add Rat.inv

/-- Number of columns of the grid.  Modelled from the spec: the constant
comes from a header that is not under src/; the spec fixes 26 columns. -/
def NUM_COLS : Nat := 26

/-- Maximum number of terms of a formula: `#define MAX_TERMS 10`, the size
of the fixed `terms` array inside `Formula`. -/
def MAX_TERMS : Nat := 10

/-- Width of a cell display string.  Modelled from the spec: the constant
comes from a header that is not under src/; the spec's scenarios need at
least 9 visible characters, we fix 10. -/
def CELL_DISPLAY_WIDTH : Nat := 10

/-- The blank characters skipped by strtol and strtod (C locale isspace). -/
def isWsChar (c : Char) : Bool :=
  c = ' ' || c = '\t' || c = '\n' || c = '\r' || c = '\x0b' || c = '\x0c'

/-- Numeric value of a decimal digit character. -/
def digVal (c : Char) : Nat := c.toNat - 48

/-- Value of a list of decimal digit characters, most significant first. -/
def digitsVal (l : List Char) : Nat :=
  l.foldl (fun a c => 10 * a + digVal c) 0

/-- The decimal digit character of value d (the C expression `'0' + d`,
for 0 ≤ d ≤ 9). -/
def digitChar (d : Nat) : Char :=
  (['0', '1', '2', '3', '4', '5', '6', '7', '8', '9']).getD d '0'

/-- Decimal rendering of a nonnegative integer, as printf %d produces it. -/
def decimalRepr (n : Nat) : List Char :=
  if _h : n < 10 then [digitChar n]
  else decimalRepr (n / 10) ++ [digitChar (n % 10)]
decreasing_by exact Nat.div_lt_self (by omega) (by omega)

/-- Decimal rendering of an integer, as printf %d produces it. -/
def intRepr (i : Int) : List Char :=
  if i < 0 then '-' :: decimalRepr i.natAbs else decimalRepr i.toNat

/-- The characters of codes 40–90: the value of the C expression `'A' + c`
for the column values `c ∈ [-25, 25]` that `Int.tmod · 26` can produce. -/
def letterTable : List Char :=
  "()*+,-./0123456789:;<=>?@ABCDEFGHIJKLMNOPQRSTUVWXYZ".data

/-- The character `'A' + c` written by `sprintf("%c%d", col + 'A', ...)`. -/
def colChar (c : Int) : Char := letterTable.getD (c + 25).toNat 'A'

/-- Model of strtol on base 10: skip blanks, optional sign, at least one
digit; returns the value and the unconsumed rest, or `none` when no
conversion was performed (in which case strtol leaves `end == nptr`). -/
def parseLong (l : List Char) : Option (Int × List Char) :=
  let l1 := l.dropWhile isWsChar
  match l1 with
  | '-' :: r =>
    let ds := r.takeWhile Char.isDigit
    if ds.isEmpty then none
    else some (-(digitsVal ds : Int), r.dropWhile Char.isDigit)
  | '+' :: r =>
    let ds := r.takeWhile Char.isDigit
    if ds.isEmpty then none
    else some ((digitsVal ds : Int), r.dropWhile Char.isDigit)
  | _ =>
    let ds := l1.takeWhile Char.isDigit
    if ds.isEmpty then none
    else some ((digitsVal ds : Int), l1.dropWhile Char.isDigit)

/-- Ten to an integer power, as an exact rational. -/
def pow10Z (e : Int) : ℚ :=
  match e with
  | .ofNat n => ((10 ^ n : Nat) : ℚ)
  | .negSucc n => 1 / ((10 ^ (n + 1) : Nat) : ℚ)

/-- Optional sign for the mantissa of strtod. -/
def parseSign (l : List Char) : ℚ × List Char :=
  match l with
  | '-' :: r => (-1, r)
  | '+' :: r => (1, r)
  | _ => (1, l)

/-- Fraction part of strtod: a dot followed by digits (either may be
absent). -/
def parseFrac (l : List Char) : List Char × List Char :=
  match l with
  | '.' :: r => (r.takeWhile Char.isDigit, r.dropWhile Char.isDigit)
  | _ => ([], l)

/-- Exponent part of strtod: `e`/`E`, optional sign, digits; consumed only
when at least one digit follows (otherwise strtod backtracks to the
mantissa). -/
def parseExp (l : List Char) : Int × List Char :=
  match l with
  | c :: r =>
    if c = 'e' ∨ c = 'E' then
      match r with
      | '-' :: r2 =>
        let ds := r2.takeWhile Char.isDigit
        if ds.isEmpty then (0, l)
        else (-(digitsVal ds : Int), r2.dropWhile Char.isDigit)
      | '+' :: r2 =>
        let ds := r2.takeWhile Char.isDigit
        if ds.isEmpty then (0, l)
        else ((digitsVal ds : Int), r2.dropWhile Char.isDigit)
      | _ =>
        let ds := r.takeWhile Char.isDigit
        if ds.isEmpty then (0, l)
        else ((digitsVal ds : Int), r.dropWhile Char.isDigit)
    else (0, l)
  | [] => (0, [])

/-- Model of strtod on the standard decimal float grammar: skip blanks,
optional sign, digits with an optional fraction (at least one digit in
mantissa), optional exponent.  Returns the exact value and the unconsumed
rest; `none` when no conversion was performed (`end == nptr`). -/
def parseDouble (l : List Char) : Option (ℚ × List Char) :=
  let l1 := l.dropWhile isWsChar
  let sr := parseSign l1
  let ip := sr.2.takeWhile Char.isDigit
  let l3 := sr.2.dropWhile Char.isDigit
  let fr := parseFrac l3
  if ip.isEmpty ∧ fr.1.isEmpty then none
  else
    let er := parseExp fr.2
    some (sr.1 * ((digitsVal ip : ℚ) + (digitsVal fr.1 : ℚ) / ((10 ^ fr.1.length : Nat) : ℚ))
            * pow10Z er.1, er.2)

/-- Model of the `strtok(text, "+")` loop of string_to_formula: the maximal
nonempty runs of non-`'+'` characters, in order (strtok skips empty
tokens, so consecutive, leading and trailing separators yield nothing). -/
def strtokPlus (l : List Char) : List (List Char) :=
  (l.splitOn '+').filter (fun t => ¬ t.isEmpty)

/-- get_cell_by_reference of model.c, on the character list of the
reference: length at least 2, first character not a lowercase letter,
column `reference[0] - 'A'` (never bounds-checked), row parsed by strtol
with the whole rest consumed and `1 ≤ row ≤ NUM_ROWS`.  The returned
pointer `&spreadsheet[row-1][column]` is modelled by its flat offset. -/
def get_cell_by_reference (numRows : Nat) (l : List Char) : Option Int :=
  match l with
  | c0 :: c1 :: rest =>
    if 'a' ≤ c0 ∧ c0 ≤ 'z' then none
    else
      let column : Int := (c0.toNat : Int) - 65
      match parseLong (c1 :: rest) with
      | none => none
      | some (row, rem) =>
        if ¬ rem.isEmpty ∨ row < 1 ∨ row > (numRows : Int) then none
        else some ((row - 1) * (NUM_COLS : Int) + column)
  | _ => none

/-- get_cell_reference of model.c: from the pointer offset, recover
`row = offset / NUM_COLS` and `col = offset % NUM_COLS` (C division and
remainder truncate toward zero) and print `sprintf("%c%d", col+'A', row+1)`.
The 4-byte result buffer (overrun for rows ≥ 100) is a memory-layout
concern not modelled here. -/
def get_cell_reference (off : Int) : List Char :=
  let row := Int.tdiv off (NUM_COLS : Int)
  let col := Int.tmod off (NUM_COLS : Int)
  colChar col :: intRepr (row + 1)

/-- The six zero-padded digits printf %f prints after the point, for a
fraction numerator f < 10^6. -/
def sixDigits (f : Nat) : List Char :=
  [digitChar (f / 100000 % 10), digitChar (f / 10000 % 10),
   digitChar (f / 1000 % 10), digitChar (f / 100 % 10),
   digitChar (f / 10 % 10), digitChar (f % 10)]

/-- Model of printf %f (six decimal places) on a finite double: round the
magnitude to an integer number n of millionths and print
`[-]intpart.frac6`.  The rounding is written floor(x + 1/2); it agrees
with %f exactly on every value that is an exact multiple of 10^-6, which
covers all values the claims evaluate. -/
def formatF (q : ℚ) : List Char :=
  let n : Nat := (Rat.floor (((if q < 0 then -q else q)) * 1000000 + mkRat 1 2)).toNat
  let body := decimalRepr (n / 1000000) ++ '.' :: sixDigits (n % 1000000)
  if q < 0 then '-' :: body else body

/-- Evaluation state of a cell (enum EvaluationState of model.c). -/
inductive EState where
  | notEvaluated
  | evaluating
  | evaluated
deriving DecidableEq

/-- A term of a formula (struct Terms of model.c): either a constant or a
cell reference; the `Cell*` pointer is modelled by its flat offset. -/
inductive Term where
  | const (v : ℚ)
  | ref (off : Int)
deriving DecidableEq

/-- The tagged value of a cell (CellType plus the matching union member of
CellValue).  A Text cell holds an owned string or NULL; a Formula cell
holds an owned formula or NULL (the failed-parse case); a formula is its
ordered term list (`terms[0..num_terms)`). -/
inductive Content where
  | text (s : Option (List Char))
  | number (v : ℚ)
  | formula (f : Option (List Term))
deriving DecidableEq

/-- A cell of the spreadsheet: value and evaluation state. -/
structure Cell where
  content : Content
  state : EState
deriving DecidableEq

/-- The global grid, indexed by flat pointer offset. -/
def State := Int → Cell

/-- Write one cell of the grid. -/
def upd (s : State) (off : Int) (c : Cell) : State :=
  fun o => if o = off then c else s o

/-- Write only the evaluation state of one cell (`term.cell->state = st`). -/
def setSt (s : State) (off : Int) (st : EState) : State :=
  upd s off { content := (s off).content, state := st }

/-- The grid after model_init: every cell is Text with a NULL string, and
the zero-initialised evaluation state NOT_EVALUATED. -/
def initState : State :=
  fun _ => { content := .text none, state := .notEvaluated }

/-- A double as this program uses it: the NaN sentinel (circular
dependency), the +Infinity sentinel (non-numeric value), or a finite
value. -/
inductive D where
  | nan
  | inf
  | val (q : ℚ)
deriving DecidableEq

/-- IEEE 754 addition restricted to the values above: NaN absorbs
everything, infinity absorbs finite values. -/
def dAdd (a b : D) : D :=
  match a, b with
  | .nan, _ => .nan
  | _, .nan => .nan
  | .inf, _ => .inf
  | _, .inf => .inf
  | .val x, .val y => .val (x + y)

/-- One token of string_to_formula: try strtod first (`end != split_term`
means some prefix converted — trailing characters are discarded); on
failure resolve the token as a cell reference, failing the whole parse if
that also fails. -/
def parseTerm (numRows : Nat) (tok : List Char) : Option Term :=
  match parseDouble tok with
  | some (v, _) => some (.const v)
  | none =>
    match get_cell_by_reference numRows tok with
    | some off => some (.ref off)
    | none => none

/-- The token loop of string_to_formula.  The source appends each term with
`formula->terms[formula->num_terms++] = term` without ever checking
`num_terms` against MAX_TERMS, so the model accumulates every token: a list
longer than MAX_TERMS corresponds to the C code writing past the end of the
fixed `terms` array. -/
def parseTerms (numRows : Nat) : List (List Char) → Option (List Term)
  | [] => some []
  | t :: ts =>
    match parseTerm numRows t with
    | none => none
    | some term =>
      match parseTerms numRows ts with
      | none => none
      | some rest => some (term :: rest)

/-- string_to_formula of model.c: tokenize `text + 1` on `'+'` and parse
each token; `none` is the NULL return of a failed parse. -/
def string_to_formulaL (numRows : Nat) (text : List Char) : Option (List Term) :=
  parseTerms numRows (strtokPlus (text.drop 1))

/-- string_to_formula on a Lean string. -/
def string_to_formula (numRows : Nat) (text : String) : Option (List Term) :=
  string_to_formulaL numRows text.data

/-- evaluate_formula of model.c, with explicit state passing and a fuel
bound on recursion depth.  `none` means the fuel ran out or a NULL formula
pointer stored in a referenced Formula cell was dereferenced (undefined
behaviour in C); neither occurs in any claim instance.  For a reference
term: a referenced cell already in EVALUATING state returns the NaN
sentinel at once; a Formula cell is marked EVALUATING, evaluated
recursively, then — unless the sub-result is the infinity sentinel, which
returns immediately — added to the running sum and marked EVALUATED; a
Number cell is marked EVALUATING then EVALUATED and its value added; a
Text cell returns the infinity sentinel at once.  Note that a NaN
sub-result fails the isinf test, so it is added to the running sum and the
loop continues. -/
def evalFormula : Nat → State → List Term → D → Option (D × State)
  | 0, _, _, _ => none
  | _ + 1, s, [], ans => some (ans, s)
  | fuel + 1, s, .const v :: rest, ans =>
    evalFormula fuel s rest (dAdd ans (.val v))
  | fuel + 1, s, .ref off :: rest, ans =>
    if (s off).state = .evaluating then some (.nan, s)
    else
      match (s off).content with
      | .formula fo =>
        match fo with
        | none => none
        | some sub =>
          let s1 := setSt s off .evaluating
          match evalFormula fuel s1 sub (.val 0) with
          | none => none
          | some (r, s2) =>
            if r = .inf then some (.inf, s2)
            else evalFormula fuel (setSt s2 off .evaluated) rest (dAdd ans r)
      | .number v =>
        evalFormula fuel (setSt (setSt s off .evaluating) off .evaluated) rest
          (dAdd ans (.val v))
      | .text _ => some (.inf, s)

/-- One term printed by formula_to_string: a cell reference via
get_cell_reference, a constant via `snprintf(number, 20, "%f", ...)`
(which truncates to 19 characters). -/
def term_to_chars (t : Term) : List Char :=
  match t with
  | .ref off => get_cell_reference off
  | .const v => (formatF v).take 19

/-- formula_to_string of model.c: `'='` followed by the rendered terms
joined with `'+'`.  The undersized CELL_DISPLAY_WIDTH+1 heap buffer the
source strcats into is a memory-layout concern not modelled here. -/
def formula_to_stringL (f : List Term) : List Char :=
  '=' :: List.intercalate ['+'] (f.map term_to_chars)

/-- formula_to_string as a Lean string. -/
def formula_to_string (f : List Term) : String :=
  String.mk (formula_to_stringL f)

/-- The outcome of one set_cell_value call: the new grid, the display
strings passed to update_cell_display in order, the result of the
evaluate_formula call if one completed, and whether the call dereferenced
a NULL formula (the parse-failure path calls evaluate_formula(NULL), which
crashes in C). -/
structure SetResult where
  state : State
  displays : List String
  evalResult : Option D
  crashed : Bool

/-- set_cell_value of model.c on a cell given by flat offset.  Input
starting with `'='`: the cell becomes a Formula cell holding the parse
result (possibly NULL); on parse failure the parse-error message is
displayed and evaluate_formula(NULL) is then still called — modelled by
`crashed := true`; on success the formula is evaluated and the result
classified by isnan / isinf into the two error messages, or printed with
`snprintf(result_str, CELL_DISPLAY_WIDTH + 1, "%f", result)`.  Other
input: stored as a Number if strtod converts a prefix, as owned Text
otherwise, and echoed to the display.  The evaluation state field of the
target cell is never touched by set_cell_value itself. -/
def setCellValueAt (numRows fuel : Nat) (s : State) (off : Int)
    (text : List Char) : SetResult :=
  if text.head? = some '=' then
    let fo := string_to_formulaL numRows text
    let s1 := upd s off { content := .formula fo, state := (s off).state }
    match fo with
    | none =>
      { state := s1, displays := ["Error: Failed to parse formula"],
        evalResult := none, crashed := true }
    | some f =>
      match evalFormula fuel s1 f (.val 0) with
      | none => { state := s1, displays := [], evalResult := none, crashed := false }
      | some (r, s2) =>
        { state := s2,
          displays := [match r with
            | .nan => "Error: circular dependency detected"
            | .inf => "Error: cell contains non-numeric value"
            | .val q => String.mk ((formatF q).take CELL_DISPLAY_WIDTH)],
          evalResult := some r, crashed := false }
  else
    match parseDouble text with
    | some (v, _) =>
      { state := upd s off { content := .number v, state := (s off).state },
        displays := [String.mk text], evalResult := none, crashed := false }
    | none =>
      { state := upd s off { content := .text (some text), state := (s off).state },
        displays := [String.mk text], evalResult := none, crashed := false }

/-- set_cell_value on row/column coordinates: the target pointer
`&spreadsheet[row][col]` has flat offset `row * NUM_COLS + col`. -/
def set_cell_value (numRows fuel : Nat) (s : State) (row col : Nat)
    (text : String) : SetResult :=
  setCellValueAt numRows fuel s ((row * NUM_COLS + col : Nat) : Int) text.data

/-- get_textual_value of model.c: Formula cells are rendered by
formula_to_string (`none` models the crash of formula_to_string(NULL) on a
failed-parse cell), Number cells by `snprintf(.., CELL_DISPLAY_WIDTH + 1,
"%f", ..)`, Text cells are copied (empty string for NULL). -/
def get_textual_value (s : State) (off : Int) : Option String :=
  match (s off).content with
  | .formula none => none
  | .formula (some f) => some (formula_to_string f)
  | .number v => some (String.mk ((formatF v).take CELL_DISPLAY_WIDTH))
  | .text (some t) => some (String.mk t)
  | .text none => some ""

/-- The ten decimal digit characters. -/
def digitList : List Char :=
  ['0', '1', '2', '3', '4', '5', '6', '7', '8', '9']

/-- Conditions under which a term survives the render/re-parse round trip
unchanged: a constant must be an exact multiple of 10^-6 (printf %f keeps
six decimal places) of magnitude under 10^11 (so "%f" fits the 20-byte
term buffer), and a referenced cell pointer must lie inside the grid
(so the recovered row is within 1..NUM_ROWS when the reference is parsed
back). -/
def termOK (numRows : Nat) : Term → Prop
  | .const v => (v * 1000000).den = 1 ∧ |v| < 100000000000
  | .ref off => 0 ≤ off ∧ off < ((numRows * NUM_COLS : Nat) : Int)

instance (numRows : Nat) (t : Term) : Decidable (termOK numRows t) := by
  cases t <;> (unfold termOK; exact inferInstance)

/-- C1: the claim asserts both set operations display the circular
dependency message; in fact the first one does not: when A1 is set to
"=B1", cell B1 is still the initial empty Text cell, so evaluate_formula
hits the Text branch and reports the non-numeric sentinel. -/
theorem c1_first_set_not_circular :
    (set_cell_value 10 20 initState 0 0 "=B1").displays
        = ["Error: cell contains non-numeric value"] ∧
    ¬ (set_cell_value 10 20 initState 0 0 "=B1").displays
        = ["Error: circular dependency detected"] := by
  with_unfolding_all decide

/-- C1 (amended): setting A1="=B1" displays the non-numeric-value error
(B1 is still an empty Text cell at that point), the subsequent
B1="=A1" displays the circular-dependency error, and neither cell's
stored value is corrupted: afterwards A1 and B1 still hold exactly their
parsed one-term formulas referencing each other. -/
theorem c1_scenario_displays_and_values :
    (set_cell_value 10 20 initState 0 0 "=B1").displays
        = ["Error: cell contains non-numeric value"] ∧
    (set_cell_value 10 20
        (set_cell_value 10 20 initState 0 0 "=B1").state 0 1 "=A1").displays
        = ["Error: circular dependency detected"] ∧
    (((set_cell_value 10 20
        (set_cell_value 10 20 initState 0 0 "=B1").state 0 1 "=A1").state 0).content
        = .formula (some [.ref 1])) ∧
    (((set_cell_value 10 20
        (set_cell_value 10 20 initState 0 0 "=B1").state 0 1 "=A1").state 1).content
        = .formula (some [.ref 0])) := by
  with_unfolding_all decide

/-- C2: string_to_formula has no term-count check at all: a text of 11
'+'-joined terms parses "successfully" into a formula whose num_terms is
11, one past the end of the fixed terms[MAX_TERMS] array — in C this is a
buffer overflow, not the TooManyTerms parse failure the claim (and the
code's own MAX_TERMS comment) prescribe. -/
theorem c2_eleven_terms_overflow :
    string_to_formula 10 "=1+1+1+1+1+1+1+1+1+1+1"
        = some (List.replicate 11 (Term.const 1)) ∧
    MAX_TERMS < 11 := by
  with_unfolding_all decide

/-- C3 (counterexample): with A1 holding the text "hello", setting
C1="=C1+A1" finds C1 itself in the Evaluating state during evaluation, yet
the enclosing call does not abort: isinf(NaN) is false, so the NaN is
added to the running sum, the loop continues to the term A1, and the Text
branch overrides the result with the non-numeric sentinel — the display is
the non-numeric message, not the circular one the claim requires, and the
remaining term was evaluated. -/
theorem c3_enclosing_call_continues :
    (set_cell_value 10 20
        (set_cell_value 10 20 initState 0 0 "hello").state 0 2 "=C1+A1").displays
        = ["Error: cell contains non-numeric value"] ∧
    ¬ (set_cell_value 10 20
        (set_cell_value 10 20 initState 0 0 "hello").state 0 2 "=C1+A1").displays
        = ["Error: circular dependency detected"] := by
  with_unfolding_all decide

/-- C3 (amended): only the single evaluate_formula call that finds a
referenced cell in the Evaluating state aborts immediately: it returns the
NaN sentinel with no partial sum and the state unchanged, whatever the
accumulated answer and remaining terms were.  Enclosing recursive calls do
not abort — they treat the NaN as a numeric sub-result, add it to their
running sum and continue with their remaining terms (see the
counterexample, where a later Text term overrides the circular report). -/
theorem c3_detecting_call_aborts_immediately (fuel : Nat) (s : State)
    (off : Int) (rest : List Term) (ans : D)
    (h : (s off).state = .evaluating) :
    evalFormula (fuel + 1) s (.ref off :: rest) ans = some (.nan, s) := by
  simp [evalFormula, h]

/-- C3 (witness for the amended theorem). -/
theorem c3_abort_witness :
    evalFormula 1 (upd initState 0 { content := .number 7, state := .evaluating })
        [.ref 0, .const 5] (.val 3)
      = some (.nan, upd initState 0 { content := .number 7, state := .evaluating }) :=
  c3_detecting_call_aborts_immediately 0
    (upd initState 0 { content := .number 7, state := .evaluating })
    0 [.const 5] (.val 3) (by with_unfolding_all decide)

/-- C5: after A1="5" and B1="3", setting C1="=A1+B1+2" evaluates to the
finite value 10, displays "10.000000", and get_textual_value on C1
round-trips the formula to "=A1+B1+2.000000". -/
theorem c5_scenario_sum_display_roundtrip :
    (set_cell_value 10 20
        (set_cell_value 10 20
            (set_cell_value 10 20 initState 0 0 "5").state 0 1 "3").state
        0 2 "=A1+B1+2").displays = ["10.000000"] ∧
    (set_cell_value 10 20
        (set_cell_value 10 20
            (set_cell_value 10 20 initState 0 0 "5").state 0 1 "3").state
        0 2 "=A1+B1+2").evalResult = some (.val 10) ∧
    get_textual_value
        (set_cell_value 10 20
            (set_cell_value 10 20
                (set_cell_value 10 20 initState 0 0 "5").state 0 1 "3").state
            0 2 "=A1+B1+2").state 2 = some "=A1+B1+2.000000" := by
  with_unfolding_all decide

/-- C6: the input "=A0" fails to parse ("A0" is neither a float prefix nor
a resolvable reference, row 0 being out of range), and set_cell_value then
leaves the target a Formula cell holding the NULL parse result, displays
the parse-error string, and still reaches the evaluate_formula call on
that NULL formula (the `crashed` flag records that call, a null
dereference in C). -/
theorem c6_parse_failure_still_evaluates :
    ((set_cell_value 10 20 initState 0 0 "=A0").state 0).content
        = .formula none ∧
    (set_cell_value 10 20 initState 0 0 "=A0").displays
        = ["Error: Failed to parse formula"] ∧
    (set_cell_value 10 20 initState 0 0 "=A0").crashed = true := by
  with_unfolding_all decide

/-- C9: the input consisting of only "=" parses into the empty term list
(strtok finds no token in the empty remainder), and evaluating the empty
formula returns the initial accumulator 0 unchanged, on any grid and with
any fuel, leaving the grid untouched. -/
theorem c9_empty_formula_evaluates_to_zero :
    (∀ numRows : Nat, string_to_formula numRows "=" = some []) ∧
    (∀ (fuel : Nat) (s : State),
      evalFormula (fuel + 1) s [] (.val 0) = some (.val 0, s)) :=
  ⟨fun _ => rfl, fun _ _ => rfl⟩

/-- C4: a reference to a Text cell makes evaluate_formula report the
infinity (non-numeric) sentinel, and the sentinel propagates transitively
through a chain of Formula cells: for any grid in which cell a is a Text
cell and cell b is a Formula cell whose formula starts by referencing a
(neither already marked Evaluating), evaluating a formula that starts by
referencing b reports the non-numeric sentinel immediately — nothing is
added to the running sum and no remaining term of either formula is
evaluated (the final grid only has b marked Evaluating). -/
theorem c4_nonnumeric_propagates_transitively (fuel : Nat) (s : State)
    (a b : Int) (ta : Option (List Char)) (tb tc : List Term) (ans : D)
    (hab : ¬ a = b)
    (ha : (s a).content = .text ta) (has : ¬ (s a).state = .evaluating)
    (hb : (s b).content = .formula (some (.ref a :: tb)))
    (hbs : ¬ (s b).state = .evaluating) :
    evalFormula (fuel + 2) s (.ref b :: tc) ans
      = some (.inf, setSt s b .evaluating) := by
  simp [evalFormula, setSt, upd, hab, ha, has, hb, hbs]

/-- C4 (witness): A1 holds the text "hello", B1 holds the parsed formula
of "=A1+1"; evaluating a formula referencing B1 (the body of C1="=B1")
reports the non-numeric sentinel. -/
theorem c4_witness :
    evalFormula 2
      (upd (upd initState 0 { content := .text (some "hello".data),
                              state := .notEvaluated })
           1 { content := .formula (some [.ref 0, .const 1]),
               state := .notEvaluated })
      [.ref 1] (.val 0)
      = some (.inf,
          setSt (upd (upd initState 0 { content := .text (some "hello".data),
                                        state := .notEvaluated })
                     1 { content := .formula (some [.ref 0, .const 1]),
                         state := .notEvaluated }) 1 .evaluating) :=
  c4_nonnumeric_propagates_transitively 0
    (upd (upd initState 0 { content := .text (some "hello".data),
                            state := .notEvaluated })
         1 { content := .formula (some [.ref 0, .const 1]),
             state := .notEvaluated })
    0 1 (some "hello".data) [.const 1] [] (.val 0)
    (by decide) (by with_unfolding_all decide) (by with_unfolding_all decide)
    (by with_unfolding_all decide) (by with_unfolding_all decide)

/-- C10: strtod-style prefix acceptance.  First part: any non-'='-leading
input whose prefix converts under strtod is stored by set_cell_value as a
Number cell holding the prefix's value (the unconverted tail is ignored
for the stored value).  Second part: any formula token whose prefix
converts under strtod is accepted by string_to_formula's token step as a
constant term with the prefix's value (the tail is discarded). -/
theorem c10_float_prefix_parses :
    (∀ (numRows fuel : Nat) (s : State) (off : Int) (c : Char)
        (rest : List Char) (v : ℚ) (r : List Char),
      ¬ c = '=' → parseDouble (c :: rest) = some (v, r) →
      ((setCellValueAt numRows fuel s off (c :: rest)).state off).content
        = .number v) ∧
    (∀ (numRows : Nat) (tok : List Char) (v : ℚ) (r : List Char),
      parseDouble tok = some (v, r) →
      parseTerm numRows tok = some (.const v)) := by
  constructor
  · intro numRows fuel s off c rest v r hc hp
    simp [setCellValueAt, hc, hp, upd]
  · intro numRows tok v r hp
    simp [parseTerm, hp]

/-- C10 (witness): set_cell with "5abc" stores the Number 5; the token
"5x" parses as the constant term 5. -/
theorem c10_witness :
    ((setCellValueAt 10 20 initState 0 ('5' :: "abc".data)).state 0).content
        = .number 5 ∧
    parseTerm 10 "5x".data = some (.const 5) :=
  ⟨c10_float_prefix_parses.1 10 20 initState 0 '5' "abc".data 5 "abc".data
      (by decide) (by with_unfolding_all decide),
   c10_float_prefix_parses.2 10 "5x".data 5 "x".data
      (by with_unfolding_all decide)⟩

/-- Every character of a digit list is one of the ten digit characters. -/
theorem digitChar_mem_digitList (d : Nat) (h : d < 10) :
    digitChar d ∈ digitList := by
  interval_cases d <;> decide

/-- The facts about a digit character needed by the parsing lemmas. -/
theorem digit_char_facts (c : Char) (h : c ∈ digitList) :
    c.isDigit = true ∧ isWsChar c = false ∧ ¬ c = '+' ∧ ¬ c = '-' ∧
    ¬ c = '.' ∧ ¬ ('a' ≤ c ∧ c ≤ 'z') := by
  fin_cases h <;> exact (by decide)

/-- digVal inverts digitChar on digit values. -/
theorem digVal_digitChar (d : Nat) (h : d < 10) : digVal (digitChar d) = d := by
  interval_cases d <;> decide

/-- decimalRepr never produces the empty list. -/
theorem decimalRepr_ne_nil (n : Nat) : ¬ decimalRepr n = [] := by
  unfold decimalRepr
  split <;> simp

/-- Every character decimalRepr produces is a digit character. -/
theorem mem_decimalRepr (n : Nat) : ∀ c ∈ decimalRepr n, c ∈ digitList := by
  induction n using Nat.strong_induction_on with
  | _ n ih =>
    unfold decimalRepr
    split
    · next h =>
      intro c hc
      simp only [List.mem_singleton] at hc
      exact hc ▸ digitChar_mem_digitList n h
    · next h =>
      intro c hc
      rcases List.mem_append.mp hc with h1 | h1
      · exact ih (n / 10) (Nat.div_lt_self (by omega) (by omega)) c h1
      · simp only [List.mem_singleton] at h1
        exact h1 ▸ digitChar_mem_digitList (n % 10) (Nat.mod_lt n (by omega))

/-- takeWhile keeps an all-true prefix and continues into the tail. -/
theorem takeWhile_append_all (p : Char → Bool) (l r : List Char)
    (h : ∀ c ∈ l, p c = true) :
    (l ++ r).takeWhile p = l ++ r.takeWhile p := by
  induction l with
  | nil => simp
  | cons c t ih =>
    simp only [List.cons_append, List.takeWhile_cons, h c (by simp),
      if_true, List.cons.injEq, true_and]
    exact ih fun x hx => h x (by simp [hx])

/-- dropWhile drops an all-true prefix and continues into the tail. -/
theorem dropWhile_append_all (p : Char → Bool) (l r : List Char)
    (h : ∀ c ∈ l, p c = true) :
    (l ++ r).dropWhile p = r.dropWhile p := by
  induction l with
  | nil => simp
  | cons c t ih =>
    simp only [List.cons_append, List.dropWhile_cons, h c (by simp), if_true]
    exact ih fun x hx => h x (by simp [hx])

/-- takeWhile of an everywhere-true list is the list itself. -/
theorem takeWhile_all (p : Char → Bool) (l : List Char)
    (h : ∀ c ∈ l, p c = true) : l.takeWhile p = l := by
  have := takeWhile_append_all p l [] h
  simpa using this

/-- dropWhile of an everywhere-true list is empty. -/
theorem dropWhile_all (p : Char → Bool) (l : List Char)
    (h : ∀ c ∈ l, p c = true) : l.dropWhile p = [] := by
  have := dropWhile_append_all p l [] h
  simpa using this

/-- Folding the digit-accumulation step from an arbitrary accumulator. -/
theorem foldl_digits_acc (l : List Char) (a : Nat) :
    l.foldl (fun x c => 10 * x + digVal c) a
      = a * 10 ^ l.length + l.foldl (fun x c => 10 * x + digVal c) 0 := by
  induction l generalizing a with
  | nil => simp
  | cons c t ih =>
    simp only [List.foldl_cons, List.length_cons]
    rw [ih (10 * a + digVal c), ih (10 * 0 + digVal c)]
    ring

/-- digitsVal distributes over append. -/
theorem digitsVal_append (a b : List Char) :
    digitsVal (a ++ b) = digitsVal a * 10 ^ b.length + digitsVal b := by
  unfold digitsVal
  rw [List.foldl_append, foldl_digits_acc]

/-- digitsVal inverts decimalRepr. -/
theorem digitsVal_decimalRepr (n : Nat) : digitsVal (decimalRepr n) = n := by
  induction n using Nat.strong_induction_on with
  | _ n ih =>
    unfold decimalRepr
    split
    · next h =>
      simp [digitsVal, digVal_digitChar n h]
    · next h =>
      rw [digitsVal_append, ih (n / 10) (Nat.div_lt_self (by omega) (by omega))]
      simp [digitsVal, digVal_digitChar (n % 10) (Nat.mod_lt n (by omega))]
      omega

/-- strtol fully consumes a pure digit string, yielding its value. -/
theorem parseLong_decimalRepr (n : Nat) :
    parseLong (decimalRepr n) = some ((n : Int), []) := by
  obtain ⟨c, cs, hE⟩ := List.exists_cons_of_ne_nil (decimalRepr_ne_nil n)
  have hmem : ∀ x ∈ decimalRepr n, x ∈ digitList := mem_decimalRepr n
  have hdig : ∀ x ∈ decimalRepr n, x.isDigit = true :=
    fun x hx => (digit_char_facts x (hmem x hx)).1
  have hws : ∀ x ∈ decimalRepr n, isWsChar x = false :=
    fun x hx => (digit_char_facts x (hmem x hx)).2.1
  have hdrop : (decimalRepr n).dropWhile isWsChar = decimalRepr n := by
    rw [hE, List.dropWhile_cons, hws c (by rw [hE]; simp)]
    simp
  have hcfacts := digit_char_facts c (hmem c (by rw [hE]; simp))
  have hcm : ¬ c = '-' := hcfacts.2.2.2.1
  have hcp : ¬ c = '+' := hcfacts.2.2.1
  unfold parseLong
  rw [hdrop, hE]
  dsimp only
  split
  · next r heq =>
    injection heq with h1 _
    exact absurd h1 hcm
  · next r heq =>
    injection heq with h1 _
    exact absurd h1 hcp
  · rw [← hE, takeWhile_all _ _ hdig, dropWhile_all _ _ hdig]
    simp only [List.isEmpty_iff]
    rw [if_neg (decimalRepr_ne_nil n), digitsVal_decimalRepr]

/-- The facts about an in-range column letter needed by the parsing
lemmas: it is the uppercase letter of code 65 + c, hence neither
lowercase, a digit, a sign, a dot, nor blank. -/
theorem colChar_facts (c : Nat) (h : c < 26) :
    (colChar (c : Int)).toNat = 65 + c ∧
    ¬ ('a' ≤ colChar (c : Int) ∧ colChar (c : Int) ≤ 'z') ∧
    (colChar (c : Int)).isDigit = false ∧
    isWsChar (colChar (c : Int)) = false ∧
    ¬ colChar (c : Int) = '+' ∧ ¬ colChar (c : Int) = '-' ∧
    ¬ colChar (c : Int) = '.' := by
  interval_cases c <;> exact (by decide)

/-- Parsing a canonically rendered reference (in-range column letter,
decimal row) recovers the flat offset. -/
theorem lookup_rendered_reference (numRows row col : Nat)
    (hcol : col < 26) (hrow : row < numRows) :
    get_cell_by_reference numRows (colChar (col : Int) :: decimalRepr (row + 1))
      = some ((row * NUM_COLS + col : Nat) : Int) := by
  obtain ⟨c1, cs, hE⟩ := List.exists_cons_of_ne_nil (decimalRepr_ne_nil (row + 1))
  have hfa := colChar_facts col hcol
  unfold get_cell_by_reference
  rw [hE]
  dsimp only
  rw [if_neg hfa.2.1, ← hE, parseLong_decimalRepr (row + 1)]
  dsimp only
  rw [if_neg (by simp only [List.isEmpty_nil, not_true_eq_false, false_or,
        not_or, not_lt, not_le]; constructor <;> [push_cast; skip] <;> omega)]
  congr 1
  rw [hfa.1]
  unfold NUM_COLS
  push_cast
  ring

/-- get_cell_reference on a nonneg offset: C truncated division and
remainder agree with Nat division and remainder. -/
theorem get_cell_reference_ofNat (n : Nat) :
    get_cell_reference ((n : Nat) : Int)
      = colChar ((n % 26 : Nat) : Int) :: decimalRepr (n / 26 + 1) := by
  have hdiv : Int.tdiv ((n : Nat) : Int) ((NUM_COLS : Nat) : Int)
      = ((n / 26 : Nat) : Int) := rfl
  have hmod : Int.tmod ((n : Nat) : Int) ((NUM_COLS : Nat) : Int)
      = ((n % 26 : Nat) : Int) := rfl
  unfold get_cell_reference
  dsimp only
  rw [hdiv, hmod]
  unfold intRepr
  rw [if_neg (by push_cast; omega)]
  congr 1

/-- C7: for every valid coordinate of the grid, rendering the cell's
reference with get_cell_reference and parsing it back with
get_cell_by_reference yields the same cell (the same flat pointer
offset). -/
theorem c7_reference_roundtrip (numRows row col : Nat)
    (hrow : row < numRows) (hcol : col < NUM_COLS) :
    get_cell_by_reference numRows
        (get_cell_reference ((row * NUM_COLS + col : Nat) : Int))
      = some ((row * NUM_COLS + col : Nat) : Int) := by
  have hcol26 : col < 26 := by simpa [NUM_COLS] using hcol
  rw [get_cell_reference_ofNat (row * NUM_COLS + col)]
  have hmod : (row * NUM_COLS + col) % 26 = col := by
    simp only [NUM_COLS]; omega
  have hdiv : (row * NUM_COLS + col) / 26 = row := by
    simp only [NUM_COLS]; omega
  rw [hmod, hdiv]
  exact lookup_rendered_reference numRows row col hcol26 hrow

/-- C7 (witness): the cell at row 3, column 2 of a 10-row grid
round-trips through its reference string "C4". -/
theorem c7_witness :
    get_cell_by_reference 10 (get_cell_reference ((3 * NUM_COLS + 2 : Nat) : Int))
      = some ((3 * NUM_COLS + 2 : Nat) : Int) :=
  c7_reference_roundtrip 10 3 2 (by decide) (by decide)

/-- Every character of sixDigits is a digit character. -/
theorem mem_sixDigits (f : Nat) : ∀ c ∈ sixDigits f, c ∈ digitList := by
  intro c hc
  unfold sixDigits at hc
  simp only [List.mem_cons, List.not_mem_nil, or_false] at hc
  rcases hc with h | h | h | h | h | h <;>
    exact h ▸ digitChar_mem_digitList _ (Nat.mod_lt _ (by omega))

/-- sixDigits has six characters. -/
theorem length_sixDigits (f : Nat) : (sixDigits f).length = 6 := rfl

/-- digitsVal inverts sixDigits below one million. -/
theorem digitsVal_sixDigits (f : Nat) (hF : f < 1000000) :
    digitsVal (sixDigits f) = f := by
  unfold sixDigits digitsVal
  simp only [List.foldl_cons, List.foldl_nil,
    digVal_digitChar _ (Nat.mod_lt _ (by omega))]
  omega

/-- parseSign leaves a list alone when it starts with neither sign. -/
theorem parseSign_default (c : Char) (l : List Char)
    (hm : ¬ c = '-') (hp : ¬ c = '+') :
    parseSign (c :: l) = (1, c :: l) := by
  unfold parseSign
  split
  · next heq => injection heq with h1 _; exact absurd h1 hm
  · next heq => injection heq with h1 _; exact absurd h1 hp
  · rfl

/-- parseFrac consumes nothing when the list does not start with a dot. -/
theorem parseFrac_default (c : Char) (l : List Char) (hdot : ¬ c = '.') :
    parseFrac (c :: l) = ([], c :: l) := by
  unfold parseFrac
  split
  · next heq => injection heq with h1 _; exact absurd h1 hdot
  · rfl

/-- strtod performs no conversion on a list whose head is not blank, not a
sign, not a digit and not a dot. -/
theorem parseDouble_head_none (c : Char) (l : List Char)
    (hws : isWsChar c = false) (hm : ¬ c = '-') (hp : ¬ c = '+')
    (hd : c.isDigit = false) (hdot : ¬ c = '.') :
    parseDouble (c :: l) = none := by
  have hsign := parseSign_default c l hm hp
  have hfrac := parseFrac_default c l hdot
  unfold parseDouble
  simp only [List.dropWhile_cons, List.takeWhile_cons, hws, hd,
    Bool.false_eq_true, if_false, hsign, hfrac]
  simp

/-- Ten to the power zero is one. -/
theorem pow10Z_zero : pow10Z 0 = 1 := by
  show (((10 ^ (0 : Nat) : Nat)) : ℚ) = 1
  norm_num

/-- strtod fully consumes an unsigned fixed-point numeral made of an
integer part and an all-digit fraction, recovering its exact value. -/
theorem parseDouble_digits_dot_any (I : Nat) (fp : List Char)
    (hmem : ∀ c ∈ fp, c ∈ digitList) :
    parseDouble (decimalRepr I ++ '.' :: fp)
      = some ((I : ℚ) + (digitsVal fp : ℚ) / ((10 ^ fp.length : Nat) : ℚ), []) := by
  have hdigI : ∀ x ∈ decimalRepr I, x.isDigit = true :=
    fun x hx => (digit_char_facts x (mem_decimalRepr I x hx)).1
  have hdigf : ∀ x ∈ fp, x.isDigit = true :=
    fun x hx => (digit_char_facts x (hmem x hx)).1
  obtain ⟨c, cs, hE⟩ := List.exists_cons_of_ne_nil (decimalRepr_ne_nil I)
  have hcfacts := digit_char_facts c (mem_decimalRepr I c (by rw [hE]; simp))
  have h0 : (decimalRepr I ++ '.' :: fp).dropWhile isWsChar
      = decimalRepr I ++ '.' :: fp := by
    rw [hE, List.cons_append, List.dropWhile_cons, hcfacts.2.1]
    simp
  have hsign : parseSign (decimalRepr I ++ '.' :: fp)
      = (1, decimalRepr I ++ '.' :: fp) := by
    rw [hE, List.cons_append]
    exact parseSign_default c _ hcfacts.2.2.2.1 hcfacts.2.2.1
  have h1 : (decimalRepr I ++ '.' :: fp).takeWhile Char.isDigit
      = decimalRepr I := by
    rw [takeWhile_append_all _ _ _ hdigI, List.takeWhile_cons]
    simp
  have h2 : (decimalRepr I ++ '.' :: fp).dropWhile Char.isDigit
      = '.' :: fp := by
    rw [dropWhile_append_all _ _ _ hdigI, List.dropWhile_cons]
    simp
  have h3 : parseFrac ('.' :: fp) = (fp, []) := by
    simp [parseFrac, takeWhile_all _ _ hdigf, dropWhile_all _ _ hdigf]
  have hExp : parseExp ([] : List Char) = (0, []) := rfl
  unfold parseDouble
  dsimp only
  rw [h0, hsign]
  dsimp only
  rw [h1, h2, h3]
  dsimp only
  rw [if_neg (by simp [List.isEmpty_iff, decimalRepr_ne_nil I])]
  rw [hExp]
  dsimp only
  rw [digitsVal_decimalRepr, pow10Z_zero]
  simp

/-- strtod fully consumes a negated fixed-point numeral, recovering its
exact value. -/
theorem parseDouble_neg_digits_dot_any (I : Nat) (fp : List Char)
    (hmem : ∀ c ∈ fp, c ∈ digitList) :
    parseDouble ('-' :: (decimalRepr I ++ '.' :: fp))
      = some (-((I : ℚ) + (digitsVal fp : ℚ) / ((10 ^ fp.length : Nat) : ℚ)), []) := by
  have hdigI : ∀ x ∈ decimalRepr I, x.isDigit = true :=
    fun x hx => (digit_char_facts x (mem_decimalRepr I x hx)).1
  have hdigf : ∀ x ∈ fp, x.isDigit = true :=
    fun x hx => (digit_char_facts x (hmem x hx)).1
  have h0 : ('-' :: (decimalRepr I ++ '.' :: fp)).dropWhile isWsChar
      = '-' :: (decimalRepr I ++ '.' :: fp) := by
    rw [List.dropWhile_cons]
    simp [isWsChar]
  have h1 : (decimalRepr I ++ '.' :: fp).takeWhile Char.isDigit
      = decimalRepr I := by
    rw [takeWhile_append_all _ _ _ hdigI, List.takeWhile_cons]
    simp
  have h2 : (decimalRepr I ++ '.' :: fp).dropWhile Char.isDigit
      = '.' :: fp := by
    rw [dropWhile_append_all _ _ _ hdigI, List.dropWhile_cons]
    simp
  have h3 : parseFrac ('.' :: fp) = (fp, []) := by
    simp [parseFrac, takeWhile_all _ _ hdigf, dropWhile_all _ _ hdigf]
  have hsign : parseSign ('-' :: (decimalRepr I ++ '.' :: fp))
      = (-1, decimalRepr I ++ '.' :: fp) := rfl
  have hExp : parseExp ([] : List Char) = (0, []) := rfl
  unfold parseDouble
  dsimp only
  rw [h0, hsign]
  dsimp only
  rw [h1, h2, h3]
  dsimp only
  rw [if_neg (by simp [List.isEmpty_iff, decimalRepr_ne_nil I])]
  rw [hExp]
  dsimp only
  rw [digitsVal_decimalRepr, pow10Z_zero]
  ring_nf

/-- strtod fully consumes an unsigned six-decimal fixed-point numeral. -/
theorem parseDouble_digits_dot (I F : Nat) (hF : F < 1000000) :
    parseDouble (decimalRepr I ++ '.' :: sixDigits F)
      = some ((I : ℚ) + (F : ℚ) / 1000000, []) := by
  rw [parseDouble_digits_dot_any I (sixDigits F) (mem_sixDigits F)]
  rw [digitsVal_sixDigits F hF, length_sixDigits]
  norm_num

/-- strtod fully consumes a negated six-decimal fixed-point numeral. -/
theorem parseDouble_neg_digits_dot (I F : Nat) (hF : F < 1000000) :
    parseDouble ('-' :: (decimalRepr I ++ '.' :: sixDigits F))
      = some (-((I : ℚ) + (F : ℚ) / 1000000), []) := by
  rw [parseDouble_neg_digits_dot_any I (sixDigits F) (mem_sixDigits F)]
  rw [digitsVal_sixDigits F hF, length_sixDigits]
  norm_num

/-- Splitting a natural number at one million, as rationals. -/
theorem nat_div_mod_million (n : Nat) :
    ((n / 1000000 : Nat) : ℚ) + ((n % 1000000 : Nat) : ℚ) / 1000000
      = (n : ℚ) / 1000000 := by
  have h2 : n / 1000000 * 1000000 + n % 1000000 = n := by omega
  field_simp
  exact_mod_cast h2

/-- printf %f output re-parses under strtod to the exact original value,
for every value that is an exact multiple of 10^-6. -/
theorem parseDouble_formatF (q : ℚ) (h6 : (q * 1000000).den = 1) :
    parseDouble (formatF q) = some (q, []) := by
  have hm : ((q * 1000000).num : ℚ) = q * 1000000 :=
    (Rat.den_eq_one_iff _).mp h6
  set m : ℤ := (q * 1000000).num with hmdef
  have hhalf : mkRat 1 2 = (1 : ℚ) / 2 := by with_unfolding_all decide
  have hfloorhalf : ⌊(1 : ℚ) / 2⌋ = (0 : ℤ) :=
    Int.floor_eq_iff.mpr (by norm_num)
  rcases le_or_lt 0 q with hq0 | hq0
  · -- nonnegative value
    have hm0 : 0 ≤ m := by
      have : (0 : ℚ) ≤ (m : ℚ) := by

        rw [hm]; positivity
      exact_mod_cast this
    have habs : (if q < 0 then -q else q) = q := by rw [if_neg (not_lt.mpr hq0)]
    have hfloor : Rat.floor (q * 1000000 + mkRat 1 2) = m := by
      show ⌊q * 1000000 + mkRat 1 2⌋ = m
      rw [hhalf, ← hm, Int.floor_int_add, hfloorhalf, add_zero]
    unfold formatF
    dsimp only
    rw [habs, hfloor, if_neg (not_lt.mpr hq0)]
    rw [parseDouble_digits_dot _ _ (Nat.mod_lt _ (by omega))]
    rw [nat_div_mod_million]
    have hn : ((m.toNat : Nat) : ℚ) = (m : ℚ) := by
      exact_mod_cast congrArg Int.cast (Int.toNat_of_nonneg hm0)
    rw [hn, hm]
    congr 1
    field_simp
  · -- negative value
    have hmneg : m < 0 := by
      have h1 : ((m : ℚ)) < 0 := by
        rw [hm]
        exact mul_neg_of_neg_of_pos hq0 (by norm_num)
      exact_mod_cast h1
    have habs : (if q < 0 then -q else q) = -q := by rw [if_pos hq0]
    have hmq : (-q) * 1000000 = ((-m : ℤ) : ℚ) := by
      push_cast
      rw [hm]
      ring
    have hfloor : Rat.floor (-q * 1000000 + mkRat 1 2) = -m := by
      show ⌊-q * 1000000 + mkRat 1 2⌋ = -m
      rw [hhalf, hmq, Int.floor_int_add, hfloorhalf, add_zero]
    unfold formatF
    dsimp only
    rw [habs, hfloor, if_pos hq0]
    rw [parseDouble_neg_digits_dot _ _ (Nat.mod_lt _ (by omega))]
    rw [nat_div_mod_million]
    have hn : (((-m).toNat : Nat) : ℚ) = ((-m : ℤ) : ℚ) := by
      exact_mod_cast congrArg Int.cast (Int.toNat_of_nonneg (by omega))
    rw [hn]
    have hq : q = -(((-m : ℤ) : ℚ) / 1000000) := by
      have h2 : q * 1000000 = (m : ℚ) := hm.symm
      push_cast
      field_simp
      linarith [h2]
    rw [← hq]

/-- decimalRepr of a number below 10^(k+1) has at most k+1 digits. -/
theorem decimalRepr_length_le (k : Nat) :
    ∀ n : Nat, n < 10 ^ (k + 1) → (decimalRepr n).length ≤ k + 1 := by
  induction k with
  | zero =>
    intro n hn
    unfold decimalRepr
    rw [dif_pos (by omega : n < 10)]
    simp
  | succ k ih =>
    intro n hn
    unfold decimalRepr
    split
    · simp
    · next h =>
      rw [List.length_append]
      have hdiv : n / 10 < 10 ^ (k + 1) := by
        rw [Nat.div_lt_iff_lt_mul (by omega)]
        calc n < 10 ^ (k + 1 + 1) := hn
        _ = 10 ^ (k + 1) * 10 := by rw [pow_succ]
      have := ih (n / 10) hdiv
      simp only [List.length_cons, List.length_nil]
      omega

/-- Under the six-decimal exactness hypothesis, the magnitude printf %f
rounds is exactly the numerator of q * 10^6. -/
theorem formatF_magnitude (q : ℚ) (h6 : (q * 1000000).den = 1) :
    (Rat.floor ((if q < 0 then -q else q) * 1000000 + mkRat 1 2)).toNat
      = (q * 1000000).num.natAbs := by
  have hm : ((q * 1000000).num : ℚ) = q * 1000000 :=
    (Rat.den_eq_one_iff _).mp h6
  set m : ℤ := (q * 1000000).num with hmdef
  have hhalf : mkRat 1 2 = (1 : ℚ) / 2 := by with_unfolding_all decide
  have hfloorhalf : ⌊(1 : ℚ) / 2⌋ = (0 : ℤ) :=
    Int.floor_eq_iff.mpr (by norm_num)
  rcases le_or_lt 0 q with hq0 | hq0
  · have hm0 : 0 ≤ m := by
      have h1 : (0 : ℚ) ≤ (m : ℚ) := by rw [hm]; positivity
      exact_mod_cast h1
    rw [if_neg (not_lt.mpr hq0)]
    have hfloor : Rat.floor (q * 1000000 + mkRat 1 2) = m := by
      show ⌊q * 1000000 + mkRat 1 2⌋ = m
      rw [hhalf, ← hm, Int.floor_int_add, hfloorhalf, add_zero]
    rw [hfloor]
    omega
  · have hmneg : m < 0 := by
      have h1 : ((m : ℚ)) < 0 := by
        rw [hm]
        exact mul_neg_of_neg_of_pos hq0 (by norm_num)
      exact_mod_cast h1
    rw [if_pos hq0]
    have hmq : (-q) * 1000000 = ((-m : ℤ) : ℚ) := by
      push_cast
      rw [hm]
      ring
    have hfloor : Rat.floor (-q * 1000000 + mkRat 1 2) = -m := by
      show ⌊-q * 1000000 + mkRat 1 2⌋ = -m
      rw [hhalf, hmq, Int.floor_int_add, hfloorhalf, add_zero]
    rw [hfloor]
    omega

/-- Under the six-decimal exactness and the 10^11 magnitude bound, the
formatted value fits the 20-byte snprintf buffer, so the truncation to 19
characters changes nothing. -/
theorem formatF_take19 (q : ℚ) (h6 : (q * 1000000).den = 1)
    (habs : |q| < 100000000000) :
    (formatF q).take 19 = formatF q := by
  have hm : ((q * 1000000).num : ℚ) = q * 1000000 :=
    (Rat.den_eq_one_iff _).mp h6
  have hnatabs : (q * 1000000).num.natAbs < 100000000000000000 := by
    have h1 : |((q * 1000000).num : ℚ)| < 100000000000000000 := by
      rw [hm, abs_mul]
      have : |(1000000 : ℚ)| = 1000000 := by norm_num
      rw [this]
      nlinarith [abs_nonneg q]
    have h2 : |(q * 1000000).num| < 100000000000000000 := by
      exact_mod_cast (by rwa [← Int.cast_abs] at h1 :
        ((|(q * 1000000).num| : ℤ) : ℚ) < 100000000000000000)
    rw [Int.abs_eq_natAbs] at h2
    exact_mod_cast h2
  have hlen : (formatF q).length ≤ 19 := by
    unfold formatF
    dsimp only
    rw [formatF_magnitude q h6]
    set n : Nat := (q * 1000000).num.natAbs with hn
    have hI : n / 1000000 < 10 ^ (10 + 1) := by omega
    have hlenI := decimalRepr_length_le 10 (n / 1000000) hI
    have hlen6 : (sixDigits (n % 1000000)).length = 6 := length_sixDigits _
    split <;> simp only [List.length_cons, List.length_append] <;> omega
  exact List.take_of_length_le (by omega)

/-- Every character printf %f emits is a sign, a dot or a digit. -/
theorem mem_formatF (q : ℚ) : ∀ c ∈ formatF q, c ∈ '-' :: '.' :: digitList := by
  intro c hc
  unfold formatF at hc
  dsimp only at hc
  have hbody : ∀ n : Nat,
      c ∈ decimalRepr (n / 1000000) ++ '.' :: sixDigits (n % 1000000) →
      c ∈ '-' :: '.' :: digitList := by
    intro n hmem
    rcases List.mem_append.mp hmem with h | h
    · exact List.mem_cons_of_mem _ (List.mem_cons_of_mem _
        (mem_decimalRepr _ c h))
    · rcases List.mem_cons.mp h with h | h
      · simp [h]
      · exact List.mem_cons_of_mem _ (List.mem_cons_of_mem _
          (mem_sixDigits _ c h))
  split at hc
  · rcases List.mem_cons.mp hc with h | h
    · simp [h]
    · exact hbody _ h
  · exact hbody _ hc

/-- printf %f never emits the empty string. -/
theorem formatF_ne_nil (q : ℚ) : ¬ formatF q = [] := by
  unfold formatF
  dsimp only
  split
  · simp
  · intro h
    rcases List.append_eq_nil.mp h with ⟨h1, _⟩
    exact decimalRepr_ne_nil _ h1

/-- A round-trip-safe term renders to a nonempty token. -/
theorem term_to_chars_ne_nil (numRows : Nat) (t : Term)
    (h : termOK numRows t) : ¬ term_to_chars t = [] := by
  cases t with
  | const v =>
    obtain ⟨h6, habs⟩ := h
    unfold term_to_chars
    dsimp only
    rw [formatF_take19 v h6 habs]
    exact formatF_ne_nil v
  | ref off =>
    obtain ⟨h0, hlt⟩ := h
    unfold term_to_chars
    dsimp only
    have hn : ((off.toNat : Nat) : Int) = off := Int.toNat_of_nonneg h0
    rw [← hn, get_cell_reference_ofNat]
    simp

/-- A round-trip-safe term renders without any '+' character. -/
theorem plus_not_mem_term_to_chars (numRows : Nat) (t : Term)
    (h : termOK numRows t) : ¬ '+' ∈ term_to_chars t := by
  cases t with
  | const v =>
    obtain ⟨h6, habs⟩ := h
    unfold term_to_chars
    dsimp only
    rw [formatF_take19 v h6 habs]
    intro hmem
    have := mem_formatF v '+' hmem
    revert this
    decide
  | ref off =>
    obtain ⟨h0, hlt⟩ := h
    unfold term_to_chars
    dsimp only
    have hn : ((off.toNat : Nat) : Int) = off := Int.toNat_of_nonneg h0
    rw [← hn, get_cell_reference_ofNat]
    intro hmem
    rcases List.mem_cons.mp hmem with hh | hh
    · exact (colChar_facts (off.toNat % 26) (Nat.mod_lt _ (by omega))).2.2.2.2.1
        hh.symm
    · have := digit_char_facts _ (mem_decimalRepr _ _ hh)
      exact this.2.2.1 rfl

/-- Re-parsing a rendered round-trip-safe term recovers it exactly. -/
theorem parseTerm_term_to_chars (numRows : Nat) (t : Term)
    (h : termOK numRows t) :
    parseTerm numRows (term_to_chars t) = some t := by
  cases t with
  | const v =>
    obtain ⟨h6, habs⟩ := h
    unfold term_to_chars
    dsimp only
    rw [formatF_take19 v h6 habs]
    unfold parseTerm
    rw [parseDouble_formatF v h6]
  | ref off =>
    obtain ⟨h0, hlt⟩ := h
    have hn : ((off.toNat : Nat) : Int) = off := Int.toNat_of_nonneg h0
    have hnlt : off.toNat < numRows * 26 := by
      have h1 : off < ((numRows * 26 : Nat) : Int) := by
        simpa [NUM_COLS] using hlt
      omega
    have hcol := colChar_facts (off.toNat % 26) (Nat.mod_lt _ (by omega))
    unfold term_to_chars
    dsimp only
    rw [← hn, get_cell_reference_ofNat]
    unfold parseTerm
    rw [parseDouble_head_none _ _ hcol.2.2.2.1 hcol.2.2.2.2.2.1
      hcol.2.2.2.2.1 hcol.2.2.1 hcol.2.2.2.2.2.2]
    rw [lookup_rendered_reference numRows (off.toNat / 26) (off.toNat % 26)
      (Nat.mod_lt _ (by omega)) (by omega)]
    have : off.toNat / 26 * NUM_COLS + off.toNat % 26 = off.toNat := by
      simp only [NUM_COLS]
      omega
    rw [this, hn]

/-- The strtok model recovers exactly the joined tokens when every token
is nonempty and '+'-free. -/
theorem strtokPlus_intercalate (xs : List (List Char))
    (hne : ∀ x ∈ xs, ¬ x = []) (hplus : ∀ x ∈ xs, ¬ '+' ∈ x) :
    strtokPlus (List.intercalate ['+'] xs) = xs := by
  cases xs with
  | nil => decide
  | cons a as =>
    unfold strtokPlus
    rw [List.splitOn_intercalate (a :: as) '+' (fun l hl => hplus l hl) (by simp)]
    rw [List.filter_eq_self.mpr]
    intro x hx
    simp only [decide_eq_true_eq]
    simp [List.isEmpty_iff, hne x hx]

/-- Token-by-token reparse of a rendered term list. -/
theorem parseTerms_map (numRows : Nat) (f : List Term)
    (h : ∀ t ∈ f, termOK numRows t) :
    parseTerms numRows (f.map term_to_chars) = some f := by
  induction f with
  | nil => rfl
  | cons t ts ih =>
    simp only [List.map_cons]
    unfold parseTerms
    rw [parseTerm_term_to_chars numRows t (h t (by simp)),
      ih (fun x hx => h x (by simp [hx]))]

/-- C8 (amended): for every formula text that parses into a formula f, if
every constant term of f is an exact multiple of 10^-6 with magnitude
under 10^11 and every reference term points inside the grid, then
rendering f with formula_to_string and re-parsing with string_to_formula
yields exactly f — the same term values and cell references in order.
(The counterexample shows the original claim fails without the
six-decimal proviso: printf %f keeps only six decimal places.) -/
theorem c8_parse_render_roundtrip (numRows : Nat) (t : String)
    (f : List Term)
    (hp : string_to_formula numRows t = some f)
    (hok : ∀ term ∈ f, termOK numRows term) :
    string_to_formula numRows (formula_to_string f) = some f := by
  unfold string_to_formula formula_to_string
  show string_to_formulaL numRows (formula_to_stringL f) = some f
  unfold string_to_formulaL formula_to_stringL
  simp only [List.drop_succ_cons, List.drop_zero]
  rw [strtokPlus_intercalate (f.map term_to_chars)
    (by
      intro x hx
      obtain ⟨term, hterm, hxeq⟩ := List.mem_map.mp hx
      exact hxeq ▸ term_to_chars_ne_nil numRows term (hok term hterm))
    (by
      intro x hx
      obtain ⟨term, hterm, hxeq⟩ := List.mem_map.mp hx
      exact hxeq ▸ plus_not_mem_term_to_chars numRows term (hok term hterm))]
  exact parseTerms_map numRows f hok

/-- C8 (witness): "=A1+2.5" parses, renders to "=A1+2.500000", and
re-parses to the same reference and constant. -/
theorem c8_witness :
    string_to_formula 10
        (formula_to_string [Term.ref 0, Term.const (mkRat 5 2)])
      = some [Term.ref 0, Term.const (mkRat 5 2)] :=
  c8_parse_render_roundtrip 10 "=A1+2.5" [Term.ref 0, Term.const (mkRat 5 2)]
    (by with_unfolding_all decide)
    (by
      intro term hterm
      fin_cases hterm <;> exact (by with_unfolding_all decide))

/-- C8 (counterexample): "=0.0000001" parses into the constant 10^-7, but
its rendering "=0.000000" re-parses into the constant 0 — the term values
are not preserved by the round trip, because printf %f keeps only six
decimal places. -/
theorem c8_six_decimal_counterexample :
    string_to_formula 10 "=0.0000001" = some [Term.const (1 / 10000000 : ℚ)] ∧
    formula_to_string [Term.const (1 / 10000000 : ℚ)] = "=0.000000" ∧
    string_to_formula 10 "=0.000000" = some [Term.const (0 : ℚ)] ∧
    ¬ (1 / 10000000 : ℚ) = 0 := by
  refine ⟨?_, ?_, ?_, by norm_num⟩
  · show string_to_formulaL 10 ("=0.0000001").data = _
    unfold string_to_formulaL
    have htok : strtokPlus (("=0.0000001").data.drop 1)
        = [decimalRepr 0 ++ '.' :: ['0', '0', '0', '0', '0', '0', '1']] := by
      with_unfolding_all decide
    rw [htok]
    unfold parseTerms parseTerm
    rw [parseDouble_digits_dot_any 0 ['0', '0', '0', '0', '0', '0', '1']
      (by decide)]
    have hval : ((0 : Nat) : ℚ)
        + ((digitsVal ['0', '0', '0', '0', '0', '0', '1'] : Nat) : ℚ)
          / (((10 ^ (['0', '0', '0', '0', '0', '0', '1'] : List Char).length : Nat)) : ℚ)
        = (1 / 10000000 : ℚ) := by
      rw [show digitsVal ['0', '0', '0', '0', '0', '0', '1'] = 1 from by decide]
      rw [show (['0', '0', '0', '0', '0', '0', '1'] : List Char).length = 7 from by decide]
      norm_num
    rw [hval]
    rfl
  · show String.mk (formula_to_stringL [Term.const (1 / 10000000 : ℚ)]) = _
    have hfl : Rat.floor ((if (1 / 10000000 : ℚ) < 0
          then -(1 / 10000000 : ℚ) else (1 / 10000000 : ℚ)) * 1000000
          + mkRat 1 2) = 0 := by
      rw [if_neg (by norm_num)]
      show ⌊(1 / 10000000 : ℚ) * 1000000 + mkRat 1 2⌋ = 0
      have harg : (1 / 10000000 : ℚ) * 1000000 + mkRat 1 2 = 3 / 5 := by
        rw [show mkRat 1 2 = (1 / 2 : ℚ) from by with_unfolding_all decide]
        norm_num
      rw [harg]
      exact Int.floor_eq_iff.mpr (by norm_num)
    unfold formula_to_stringL term_to_chars
    unfold formatF
    simp only [List.map_cons, List.map_nil]
    rw [hfl]
    rw [if_neg (by norm_num : ¬ (1 / 10000000 : ℚ) < 0)]
    with_unfolding_all decide
  · show string_to_formulaL 10 ("=0.000000").data = _
    unfold string_to_formulaL
    have htok : strtokPlus (("=0.000000").data.drop 1)
        = [decimalRepr 0 ++ '.' :: sixDigits 0] := by with_unfolding_all decide
    rw [htok]
    unfold parseTerms parseTerm
    rw [parseDouble_digits_dot 0 0 (by omega)]
    norm_num
    rfl
